import Mathlib

/-!
Verification of the `readonly_ai` news-scraper pipeline (database layer, URL
identity, batch analysis loop, summary generator) against its natural-language
specification.  Python source functions are shallowly embedded as executable
Lean definitions; Python `str` methods and the relevant pieces of
`urllib.parse` and `hashlib.md5` are modelled byte-for-byte where the claims
depend on them (ASCII case conversion; multi-byte percent-escapes are decoded
byte-wise, a simplification that no claim exercises).
-/

set_option maxRecDepth 100000

namespace ReadonlyAI

/-! ### Python string primitives -/

/-- Whitespace characters recognised by Python `str.strip` / `str.split`. -/
def pyIsSpace (c : Char) : Bool :=
  c == ' ' || c == '\t' || c == '\n' || c == '\r' || c.toNat == 11 || c.toNat == 12

/-- Python `str.strip()`: drop leading and trailing whitespace. -/
def pyStrip (s : String) : String :=
  ⟨((s.data.dropWhile pyIsSpace).reverse.dropWhile pyIsSpace).reverse⟩

/-- Python `str.lower()` (ASCII range; the URLs and tags in scope are ASCII). -/
def pyLower (s : String) : String :=
  ⟨s.data.map Char.toLower⟩

/-- One step of grouping a character stream into maximal non-whitespace runs
(used to model Python `str.split()` with no arguments). -/
def wsSplitStep (c : Char) (acc : List (List Char)) : List (List Char) :=
  if pyIsSpace c then [] :: acc
  else
    match acc with
    | [] => [[c]]
    | w :: ws => (c :: w) :: ws

/-- Python `str.split()` with no arguments: maximal runs of non-whitespace. -/
def pySplitWs (s : String) : List String :=
  ((s.data.foldr wsSplitStep []).filter (· ≠ [])).map (⟨·⟩)

/-- Result of joining `s.split()` with single spaces: collapse whitespace runs. -/
def pyNormWs (s : String) : String :=
  String.intercalate " " (pySplitWs s)

/-! ### UTF-8 and MD5 (`hashlib.md5(...).hexdigest()`) -/

/-- UTF-8 encoding of one character as a list of byte values. -/
def utf8Bytes (c : Char) : List Nat :=
  let n := c.toNat
  if n < 128 then [n]
  else if n < 2048 then [192 + n / 64, 128 + n % 64]
  else if n < 65536 then [224 + n / 4096, 128 + n / 64 % 64, 128 + n % 64]
  else [240 + n / 262144, 128 + n / 4096 % 64, 128 + n / 64 % 64, 128 + n % 64]

/-- UTF-8 bytes of a string (Python `s.encode("utf-8")`). -/
def strBytes (s : String) : List Nat :=
  (s.data.map utf8Bytes).flatten

/-- 32-bit left rotation on a value below `2 ^ 32`. -/
def rotl32 (x n : Nat) : Nat :=
  (x * 2 ^ n) % 4294967296 + x / 2 ^ (32 - n)

/-- Bitwise complement within 32 bits (valid for inputs below `2 ^ 32`). -/
def not32 (x : Nat) : Nat := 4294967295 - x

/-- MD5 sine-table constants `K[0..63]` (RFC 1321). -/
def md5K : List Nat :=
  [0xd76aa478, 0xe8c7b756, 0x242070db, 0xc1bdceee,
   0xf57c0faf, 0x4787c62a, 0xa8304613, 0xfd469501,
   0x698098d8, 0x8b44f7af, 0xffff5bb1, 0x895cd7be,
   0x6b901122, 0xfd987193, 0xa679438e, 0x49b40821,
   0xf61e2562, 0xc040b340, 0x265e5a51, 0xe9b6c7aa,
   0xd62f105d, 0x02441453, 0xd8a1e681, 0xe7d3fbc8,
   0x21e1cde6, 0xc33707d6, 0xf4d50d87, 0x455a14ed,
   0xa9e3e905, 0xfcefa3f8, 0x676f02d9, 0x8d2a4c8a,
   0xfffa3942, 0x8771f681, 0x6d9d6122, 0xfde5380c,
   0xa4beea44, 0x4bdecfa9, 0xf6bb4b60, 0xbebfbc70,
   0x289b7ec6, 0xeaa127fa, 0xd4ef3085, 0x04881d05,
   0xd9d4d039, 0xe6db99e5, 0x1fa27cf8, 0xc4ac5665,
   0xf4292244, 0x432aff97, 0xab9423a7, 0xfc93a039,
   0x655b59c3, 0x8f0ccc92, 0xffeff47d, 0x85845dd1,
   0x6fa87e4f, 0xfe2ce6e0, 0xa3014314, 0x4e0811a1,
   0xf7537e82, 0xbd3af235, 0x2ad7d2bb, 0xeb86d391]

/-- MD5 per-round left-rotation amounts `s[0..63]` (RFC 1321). -/
def md5S : List Nat :=
  [7, 12, 17, 22, 7, 12, 17, 22, 7, 12, 17, 22, 7, 12, 17, 22,
   5, 9, 14, 20, 5, 9, 14, 20, 5, 9, 14, 20, 5, 9, 14, 20,
   4, 11, 16, 23, 4, 11, 16, 23, 4, 11, 16, 23, 4, 11, 16, 23,
   6, 10, 15, 21, 6, 10, 15, 21, 6, 10, 15, 21, 6, 10, 15, 21]

/-- Running MD5 state: four 32-bit words. -/
structure MD5State where
  a : Nat
  b : Nat
  c : Nat
  d : Nat
deriving Repr, DecidableEq

/-- Little-endian bytes of a 32-bit word. -/
def le4 (n : Nat) : List Nat :=
  [n % 256, n / 256 % 256, n / 65536 % 256, n / 16777216 % 256]

/-- Little-endian bytes of a 64-bit word. -/
def le8 (n : Nat) : List Nat :=
  le4 (n % 4294967296) ++ le4 (n / 4294967296)

/-- MD5 padding: append `0x80`, zero-fill to 56 mod 64, then the 64-bit
little-endian bit length. -/
def md5Pad (msg : List Nat) : List Nat :=
  let z := (119 - msg.length % 64) % 64
  msg ++ [128] ++ List.replicate z 0 ++ le8 (msg.length * 8 % 18446744073709551616)

/-- Fuel-driven worker splitting a byte list into 64-byte chunks; the fuel is
an upper bound on the number of chunks and each step consumes at least one
byte, so `chunks64` below never exhausts it. -/
def chunks64Go : Nat → List Nat → List (List Nat)
  | 0, _ => []
  | _, [] => []
  | n + 1, c :: rest => ((c :: rest).take 64) :: chunks64Go n ((c :: rest).drop 64)

/-- Split a byte list into 64-byte chunks. -/
def chunks64 (l : List Nat) : List (List Nat) :=
  chunks64Go l.length l

/-- Little-endian 32-bit word from four bytes. -/
def le32Of (b : List Nat) : Nat :=
  b.getD 0 0 + 256 * b.getD 1 0 + 65536 * b.getD 2 0 + 16777216 * b.getD 3 0

/-- The sixteen 32-bit message words of one 64-byte chunk. -/
def md5Words (c : List Nat) : List Nat :=
  (List.range 16).map (fun i => le32Of ((c.drop (4 * i)).take 4))

/-- One of the 64 MD5 operations. -/
def md5Round (M : List Nat) (st : MD5State) (i : Nat) : MD5State :=
  let fg : Nat × Nat :=
    if i < 16 then ((st.b &&& st.c) ||| (not32 st.b &&& st.d), i)
    else if i < 32 then ((st.d &&& st.b) ||| (not32 st.d &&& st.c), (5 * i + 1) % 16)
    else if i < 48 then (st.b ^^^ st.c ^^^ st.d, (3 * i + 5) % 16)
    else (st.c ^^^ (st.b ||| not32 st.d), (7 * i) % 16)
  let f := (fg.1 + st.a + md5K.getD i 0 + M.getD fg.2 0) % 4294967296
  ⟨st.d, (st.b + rotl32 f (md5S.getD i 0)) % 4294967296, st.b, st.c⟩

/-- Process one 64-byte chunk, adding the round result into the running state. -/
def md5Chunk (st : MD5State) (c : List Nat) : MD5State :=
  let r := (List.range 64).foldl (md5Round (md5Words c)) st
  ⟨(st.a + r.a) % 4294967296, (st.b + r.b) % 4294967296,
   (st.c + r.c) % 4294967296, (st.d + r.d) % 4294967296⟩

/-- MD5 digest of a byte list, as 16 bytes. -/
def md5Bytes (msg : List Nat) : List Nat :=
  let st := (chunks64 (md5Pad msg)).foldl md5Chunk
    ⟨0x67452301, 0xefcdab89, 0x98badcfe, 0x10325476⟩
  le4 st.a ++ le4 st.b ++ le4 st.c ++ le4 st.d

/-- Lowercase hexadecimal digit. -/
def hexChar (n : Nat) : Char :=
  if n < 10 then Char.ofNat (48 + n) else Char.ofNat (87 + n)

/-- Two lowercase hex digits of a byte. -/
def byteHex (b : Nat) : List Char :=
  [hexChar (b / 16 % 16), hexChar (b % 16)]

/-- Python `hashlib.md5(s.encode("utf-8")).hexdigest()`. -/
def md5hex (s : String) : String :=
  ⟨((md5Bytes (strBytes s)).map byteHex).flatten⟩

/-! ### `urllib.parse`: `urlparse`, `parse_qs`, `urlencode`, `quote_plus` -/

/-- Characters allowed in a URL scheme (`urllib.parse.scheme_chars`). -/
def schemeChar (c : Char) : Bool :=
  c.isAlphanum || c == '+' || c == '-' || c == '.'

/-- Scheme detection of `urlsplit`: the part before the first `:` is the
scheme when it is non-empty, starts with a letter, and consists of scheme
characters only; the remainder follows the colon. -/
def headIsAlpha : List Char → Bool
  | c :: _ => c.isAlpha
  | [] => false

def splitScheme (l : List Char) : List Char × List Char :=
  let pre := l.takeWhile (fun c => c != ':')
  if Nat.blt pre.length l.length && !pre.isEmpty && pre.all schemeChar && headIsAlpha l
  then (pre, l.drop (pre.length + 1))
  else ([], l)

/-- Delimiters terminating the authority component. -/
def netlocStop (c : Char) : Bool :=
  c == '/' || c == '?' || c == '#'

/-- Authority extraction of `urlsplit`: after a leading `//`, the netloc runs
until the next `/`, `?` or `#`. -/
def splitNetloc (l : List Char) : List Char × List Char :=
  match l with
  | '/' :: '/' :: rest =>
    (rest.takeWhile (fun c => !netlocStop c), rest.dropWhile (fun c => !netlocStop c))
  | _ => ([], l)

/-- Bracket sanity check of `urlsplit`: a netloc containing `[` without `]`
(or conversely) raises `ValueError: Invalid IPv6 URL`. -/
def netlocBracketsOk (n : List Char) : Bool :=
  n.contains '[' == n.contains ']'

/-- Split off the fragment at the first `#`. -/
def splitFragment (l : List Char) : List Char × List Char :=
  (l.takeWhile (fun c => c != '#'), (l.dropWhile (fun c => c != '#')).drop 1)

/-- Split off the query at the first `?`. -/
def splitQuery (l : List Char) : List Char × List Char :=
  (l.takeWhile (fun c => c != '?'), (l.dropWhile (fun c => c != '?')).drop 1)

/-- Parameter stripping of `urlparse._splitparams` applied to the path: when a
`;` occurs (after the last `/` if any), the path is truncated before it. -/
def splitParamsPath (p : List Char) : List Char :=
  if p.contains ';' then
    if p.contains '/' then
      if ((p.reverse.takeWhile (fun c => c != '/')).reverse).contains ';' then
        p.take (p.length - ((p.reverse.takeWhile (fun c => c != '/')).reverse).length) ++
          ((p.reverse.takeWhile (fun c => c != '/')).reverse).takeWhile (fun c => c != ';')
      else p
    else p.takeWhile (fun c => c != ';')
  else p

/-- Components of `urllib.parse.urlparse` used by the program. -/
structure PyURL where
  scheme : String
  netloc : String
  path : String
  query : String
  fragment : String
deriving Repr, DecidableEq

/-- Model of `urllib.parse.urlparse`: `none` models the `ValueError` raised on
an unbalanced-bracket netloc, the one parse failure reachable on `str` input. -/
def pyUrlparse (s : String) : Option PyURL :=
  if netlocBracketsOk (splitNetloc (splitScheme s.data).2).1 then
    some ⟨⟨(splitScheme s.data).1⟩,
          ⟨(splitNetloc (splitScheme s.data).2).1⟩,
          ⟨splitParamsPath
            (splitQuery (splitFragment (splitNetloc (splitScheme s.data).2).2).1).1⟩,
          ⟨(splitQuery (splitFragment (splitNetloc (splitScheme s.data).2).2).1).2⟩,
          ⟨(splitFragment (splitNetloc (splitScheme s.data).2).2).2⟩⟩
  else none

/-- Numeric value of a hex digit. -/
def hexVal (c : Char) : Nat :=
  if c.isDigit then c.toNat - 48
  else if 'a' ≤ c ∧ c ≤ 'f' then c.toNat - 87
  else if 'A' ≤ c ∧ c ≤ 'F' then c.toNat - 55
  else 0

/-- Hexadecimal digit test. -/
def isHexDigit (c : Char) : Bool :=
  c.isDigit || ('a' ≤ c && c ≤ 'f') || ('A' ≤ c && c ≤ 'F')

/-- Character-level model of `urllib.parse.unquote_plus`: `+` becomes a space
and `%hh` becomes the character of the byte value (multi-byte UTF-8 escape
sequences are decoded byte-wise; invalid escapes are kept literally, as in
Python). -/
def unquotePlusChars : List Char → List Char
  | [] => []
  | '+' :: rest => ' ' :: unquotePlusChars rest
  | '%' :: h1 :: h2 :: rest =>
    if isHexDigit h1 && isHexDigit h2 then
      Char.ofNat (16 * hexVal h1 + hexVal h2) :: unquotePlusChars rest
    else '%' :: unquotePlusChars (h1 :: h2 :: rest)
  | c :: rest => c :: unquotePlusChars rest

/-- String wrapper for `unquote_plus`. -/
def unquotePlus (s : String) : String :=
  ⟨unquotePlusChars s.data⟩

/-- One `name=value` field of `parse_qsl` (default options: blank fields and
fields with no `=` or an empty value are dropped). -/
def qslField (nv : String) (acc : List (String × String)) : List (String × String) :=
  if nv = "" then acc
  else
    let d := nv.data
    let name := d.takeWhile (fun c => c != '=')
    if name.length < d.length then
      let value := (d.dropWhile (fun c => c != '=')).drop 1
      if value = [] then acc
      else (unquotePlus ⟨name⟩, unquotePlus ⟨value⟩) :: acc
    else acc

/-- Split a character list at every occurrence of `sep` (Python
`str.split(sep)`: the empty string yields one empty field). -/
def splitOnChar (sep : Char) (l : List Char) : List (List Char) :=
  l.foldr (fun c acc =>
    match acc with
    | cur :: rest => if c == sep then [] :: cur :: rest else (c :: cur) :: rest
    | [] => [[c]]) [[]]

/-- Model of `urllib.parse.parse_qsl` with default arguments. -/
def parseQsl (q : String) : List (String × String) :=
  ((splitOnChar '&' q.data).map (fun f => (⟨f⟩ : String))).foldr qslField []

/-- Insertion-ordered grouping into an association list, the shape of every
`dict`-accumulation loop in the source. -/
def upsertGroup (key : α → String) (init : α → β) (add : β → α → β)
    (acc : List (String × β)) (x : α) : List (String × β) :=
  if acc.any (fun kv => kv.1 = key x) then
    acc.map (fun kv => if kv.1 = key x then (kv.1, add kv.2 x) else kv)
  else acc ++ [(key x, init x)]

/-- Fold a list into an insertion-ordered association list grouped by key. -/
def groupByKey (key : α → String) (init : α → β) (add : β → α → β)
    (l : List α) : List (String × β) :=
  l.foldl (upsertGroup key init add) []

/-- Model of `urllib.parse.parse_qs`: values grouped per key, first-occurrence
key order, value order preserved. -/
def parseQs (q : String) : List (String × List String) :=
  groupByKey Prod.fst (fun kv => [kv.2]) (fun vs kv => vs ++ [kv.2]) (parseQsl q)

/-- Characters never quoted by `urllib.parse.quote_plus`. -/
def quoteSafe (c : Char) : Bool :=
  c.isAlphanum || c == '_' || c == '.' || c == '-' || c == '~'

/-- Uppercase hexadecimal digit (percent-escapes use uppercase hex). -/
def hexUpper (n : Nat) : Char :=
  if n < 10 then Char.ofNat (48 + n) else Char.ofNat (55 + n)

/-- Percent-escape of one byte. -/
def pctEncode (b : Nat) : List Char :=
  ['%', hexUpper (b / 16 % 16), hexUpper (b % 16)]

/-- Model of `urllib.parse.quote_plus` on one character. -/
def quotePlusChar (c : Char) : List Char :=
  if quoteSafe c then [c]
  else if c == ' ' then ['+']
  else ((utf8Bytes c).map pctEncode).flatten

/-- Model of `urllib.parse.quote_plus`. -/
def quotePlus (s : String) : String :=
  ⟨(s.data.map quotePlusChar).flatten⟩

/-- Model of `urllib.parse.urlencode(params, doseq=True)` on a dict of value
lists: one `key=value` field per list element, joined with `&`. -/
def urlencodeDoseq (params : List (String × List String)) : String :=
  String.intercalate "&"
    ((params.map (fun kv => kv.2.map (fun v => quotePlus kv.1 ++ "=" ++ quotePlus v))).flatten)

/-! ### `database.py`: tracking parameters and `generate_article_id` -/

/-- Tracking query keys removed during URL normalisation
(`database.TRACKING_PARAMS`). -/
def TRACKING_PARAMS : List String :=
  ["utm_source", "utm_medium", "utm_campaign", "utm_term", "utm_content",
   "fbclid", "gclid", "ref", "source", "campaign", "medium",
   "_ga", "_gid", "mc_cid", "mc_eid"]

/-- Query parameters surviving the tracking filter
(`cleaned_params` in `generate_article_id`). -/
def cleanedParams (q : String) : List (String × List String) :=
  (parseQs q).filter (fun kv => ¬ TRACKING_PARAMS.contains (pyLower kv.1))

/-- Re-encoded query after tracking removal (`cleaned_query`). -/
def cleanedQueryOf (q : String) : String :=
  urlencodeDoseq (cleanedParams q)

/-- The normalised URL hashed by `generate_article_id` (`clean_url`). -/
def cleanUrlOf (p : PyURL) : String :=
  let base := p.scheme ++ "://" ++ p.netloc ++ p.path
  let cq := cleanedQueryOf p.query
  if cq ≠ "" then base ++ "?" ++ cq else base

/-- Body of `database.generate_article_id` with the hash function abstracted:
empty input yields the empty sentinel id; otherwise the lowercased, stripped
URL is parsed, tracking parameters are removed and the hash of the clean URL
is returned; a parse failure falls back to hashing the raw original URL. -/
def genArticleIdWith (h : String → String) (url : String) : String :=
  if url = "" then ""
  else
    match pyUrlparse (pyStrip (pyLower url)) with
    | some p => h (cleanUrlOf p)
    | none => h url

/-- Python `database.generate_article_id`, hashing with `hashlib.md5`. -/
def generate_article_id (url : String) : String :=
  genArticleIdWith md5hex url

/-! ### `database.py`: store state and `clean_text` / `insert_article`

The SQLite database (the default `DATABASE_TYPE`) is modelled as explicit
state: the `articles` table (primary key `(source, id)`, plus the unique index
`idx_article_id_unique` on `article_id` created by `create_database`) and the
`articles_analyses` table (primary key `article_id`).  `date` is kept as the
stored text; time comparison is abstracted by a `dtime` parameter standing for
SQLite `datetime` evaluation. -/

/-- One row of the `articles` table. -/
structure Row where
  parser : String
  source : String
  id : String
  subset : Option String
  thread_url : Option String
  title : String
  content : Option String
  date : String
  article_id : String
  article_url : String
deriving Repr, DecidableEq

/-- One row of the `articles_analyses` table (`tags` kept structured,
abstracting the `json.dumps` text encoding). -/
structure AnalysisRow where
  article_id : String
  relevance_score : Int
  category : Int
  tags : List String
deriving Repr, DecidableEq

/-- Database state. -/
structure Store where
  articles : List Row
  analyses : List AnalysisRow
deriving Repr, DecidableEq

/-- Tag-skipping state machine modelling `BeautifulSoup(s, "html.parser")
.get_text()` on plain tag markup (entity references and script/style
special-casing are out of scope; no claim exercises them). -/
def stripHtmlGo : Bool → List Char → List Char
  | _, [] => []
  | false, '<' :: rest => stripHtmlGo true rest
  | false, c :: rest => c :: stripHtmlGo false rest
  | true, '>' :: rest => stripHtmlGo false rest
  | true, _ :: rest => stripHtmlGo true rest

/-- HTML text extraction. -/
def stripHtml (s : String) : String :=
  ⟨stripHtmlGo false s.data⟩

/-- Python `database.clean_text`: `None` for `None`/empty input, else the
HTML-stripped, whitespace-collapsed, stripped text (possibly empty). -/
def clean_text : Option String → Option String
  | none => none
  | some s => if s = "" then none else some (pyStrip (pyNormWs (stripHtml s)))

/-- Required-field test of `insert_article`: a field is missing when it is
empty or blank after trimming. -/
def blankAfterStrip (v : String) : Bool :=
  pyStrip v == ""

/-- Python `x.strip() if x else None` on an optional parameter. -/
def optParam : Option String → Option String
  | none => none
  | some s => if s = "" then none else some (pyStrip s)

/-- Python `database.insert_article` on the SQLite store: validates required
fields, derives the `article_id`, cleans title and content, and executes
`INSERT OR IGNORE` — the row is ignored (returning `false`, `rowcount = 0`)
when it conflicts with the `(source, id)` primary key or with the unique index
on `article_id`. -/
def insert_article (st : Store) (parser source id : String)
    (subset thread_url : Option String) (title : String) (content : Option String)
    (date : String) (article_url : String) : Bool × Store :=
  if blankAfterStrip parser || blankAfterStrip source || blankAfterStrip id ||
      blankAfterStrip title || blankAfterStrip date || blankAfterStrip article_url then
    (false, st)
  else
    let generated := generate_article_id article_url
    if generated = "" then (false, st)
    else
      match clean_text (some title) with
      | none => (false, st)
      | some ct =>
        if ct = "" then (false, st)
        else
          let row : Row :=
            { parser := pyStrip parser, source := pyStrip source, id := pyStrip id,
              subset := optParam subset, thread_url := optParam thread_url,
              title := ct, content := clean_text content, date := pyStrip date,
              article_id := generated, article_url := pyStrip article_url }
          if st.articles.any (fun r =>
              (r.source == row.source && r.id == row.id) || r.article_id == generated) then
            (false, st)
          else (true, { st with articles := st.articles ++ [row] })

/-! ### `database.py`: grouped reads and analysis upsert -/

/-- Descending insertion by the stored date text (SQL `ORDER BY date DESC`;
SQLite compares `TEXT` dates lexicographically). -/
def insertByDateDesc (r : Row) : List Row → List Row
  | [] => [r]
  | x :: xs => if x.date < r.date then r :: x :: xs else x :: insertByDateDesc r xs

/-- Sort rows by date, most recent first. -/
def sortByDateDesc (rows : List Row) : List Row :=
  rows.foldr insertByDateDesc []

/-- One grouped entry of `get_unanalysed_articles`: the article URL of the
first row seen plus the `(title, content)` pair of every contributing row. -/
structure UEntry where
  article_url : String
  sources : List (String × Option String)
deriving Repr, DecidableEq

/-- Rows of the `GET_UNANALYSED_ARTICLES` query: articles with no analysis row
(`LEFT JOIN … WHERE aa.article_id IS NULL`), ordered by date descending. -/
def unanalysedRows (st : Store) : List Row :=
  sortByDateDesc (st.articles.filter
    (fun r => !st.analyses.any (fun a => a.article_id == r.article_id)))

/-- Python `database.get_unanalysed_articles`: the query rows (optionally
capped by `LIMIT`) grouped into an insertion-ordered dict keyed by
`article_id`. -/
def get_unanalysed_articles (st : Store) (limit : Option Nat) :
    List (String × UEntry) :=
  let rows := match limit with
    | some n => (unanalysedRows st).take n
    | none => unanalysedRows st
  groupByKey (fun r => r.article_id)
    (fun r => ⟨r.article_url, [(r.title, r.content)]⟩)
    (fun e r => ⟨e.article_url, e.sources ++ [(r.title, r.content)]⟩) rows

/-- One grouped entry of `get_recent_articles`: article URL plus the full
contributing rows. -/
structure REntry where
  article_url : String
  sources : List Row
deriving Repr, DecidableEq

/-- Rows of the `GET_RECENT_ARTICLES` query: inner join of `articles` with
`articles_analyses` filtered by score, category and the lower time bound
`datetime(a.date) >= datetime('now', '-H hours')`, ordered by date
descending.  `dtime` abstracts SQLite datetime parsing, `now` the current
time, both in seconds. -/
def recentRows (dtime : String → Int) (now : Int) (st : Store)
    (hours_back min_rel category : Int) : List Row :=
  sortByDateDesc (((st.articles.map (fun r =>
    (st.analyses.filter (fun a =>
      a.article_id == r.article_id && decide (min_rel ≤ a.relevance_score) &&
        a.category == category)).map (fun _ => r))).flatten).filter
    (fun r => decide (now - hours_back * 3600 ≤ dtime r.date)))

/-- Python `database.get_recent_articles` (SQLite path), grouped like
`get_unanalysed_articles`. -/
def get_recent_articles (dtime : String → Int) (now : Int) (st : Store)
    (hours_back min_rel category : Int) : List (String × REntry) :=
  groupByKey (fun r => r.article_id)
    (fun r => ⟨r.article_url, [r]⟩)
    (fun e r => ⟨e.article_url, e.sources ++ [r]⟩)
    (recentRows dtime now st hours_back min_rel category)

/-- SQLite `INSERT OR REPLACE` into `articles_analyses`. -/
def upsertAnalysis (l : List AnalysisRow) (a : AnalysisRow) : List AnalysisRow :=
  if l.any (fun x => x.article_id == a.article_id) then
    l.map (fun x => if x.article_id == a.article_id then a else x)
  else l ++ [a]

/-- Python `database.insert_article_analysis`: upsert each tuple, counting one
affected row per statement. -/
def insert_article_analysis (st : Store)
    (data : List (String × Int × Int × List String)) : Nat × Store :=
  data.foldl (fun acc d =>
    (acc.1 + 1,
     { acc.2 with analyses := upsertAnalysis acc.2.analyses ⟨d.1, d.2.1, d.2.2.1, d.2.2.2⟩ }))
    (0, st)

/-! ### `analysis.py`: response validation and the analysis loop

The scoring-service response (`json.loads` of the model output) is a dynamic
JSON value; Python `bool` is a subclass of `int`, so the `isinstance` gates
admit booleans, and `float` scores are admitted and truncated by `int(...)`.
Floats are modelled as exact rationals (every value the range checks accept
is exact). -/

/-- Batch size of the analysis loop (`analysis.BATCH_SIZE`). -/
def BATCH_SIZE : Nat := 20

/-- Failure limit of the analysis loop (`analysis.MAX_CONSECUTIVE_FAILURES`). -/
def MAX_CONSECUTIVE_FAILURES : Nat := 3

/-- Parsed JSON value. -/
inductive JVal where
  | jnull : JVal
  | jbool : Bool → JVal
  | jint : Int → JVal
  | jnum : ℚ → JVal
  | jstr : String → JVal
  | jarr : List JVal → JVal
  | jobj : List (String × JVal) → JVal

/-- Python `dict.get` on a parsed JSON object (objects are modelled with
unique keys, as produced by `json.loads`). -/
def jget (o : List (String × JVal)) (k : String) : Option JVal :=
  (o.find? (fun kv => kv.1 == k)).map (fun kv => kv.2)

/-- Python `isinstance(x, (int, float))`; `bool` is a subclass of `int`. -/
def isNumber : JVal → Bool
  | .jint _ => true
  | .jbool _ => true
  | .jnum _ => true
  | _ => false

/-- Numeric value used by the range comparisons (`True` compares as 1). -/
def numValue : JVal → ℚ
  | .jint n => n
  | .jbool b => if b then 1 else 0
  | .jnum q => q
  | _ => 0

/-- Python `isinstance(x, int)`; `bool` is a subclass of `int`. -/
def isInteger : JVal → Bool
  | .jint _ => true
  | .jbool _ => true
  | _ => false

/-- Python `int(q)`: truncation toward zero. -/
def pyTrunc (q : ℚ) : Int :=
  if 0 ≤ q then q.floor else -((-q).floor)

/-- Python `int(x)` on a numeric JSON value. -/
def intValue : JVal → Int
  | .jint n => n
  | .jbool b => if b then 1 else 0
  | .jnum q => pyTrunc q
  | _ => 0

/-- String extraction (`isinstance(tag, str)` plus the value). -/
def strOfJ : JVal → Option String
  | .jstr s => some s
  | _ => none

/-- All-or-nothing traversal: `some` of the image list when `f` succeeds on
every element, `none` otherwise (the shape of the validation loop, which
returns `[]` on the first failing item). -/
def mapOpt (f : α → Option β) : List α → Option (List β)
  | [] => some []
  | a :: l =>
    match f a, mapOpt f l with
    | some b, some bs => some (b :: bs)
    | _, _ => none

/-- One validated analysis produced by `analyze_articles_batch`. -/
structure VAnalysis where
  score : Int
  category : Int
  tags : List String
deriving Repr, DecidableEq

/-- Tag cleaning of `analyze_articles_batch`:
`[tag.strip().lower() for tag in tags if tag.strip()]` — blank tags are
dropped, the rest stripped and lowercased. -/
def cleanTags (tags : List String) : List String :=
  tags.filterMap (fun t => if pyStrip t = "" then none else some (pyLower (pyStrip t)))

/-- Validation of one response item (`analysis.analyze_articles_batch`,
lines 102–141): a dict with a numeric `score` in `[0, 100]`, an integer
`category` in `[1, 6]` and a list `tags` of 3–8 strings; the validated item
carries `int(score)`, `int(category)` and the cleaned tags. -/
def validItem (v : JVal) : Option VAnalysis :=
  match v with
  | .jobj fields =>
    match jget fields "score" with
    | some s =>
      if isNumber s && decide (0 ≤ numValue s) && decide (numValue s ≤ 100) then
        match jget fields "category" with
        | some c =>
          if isInteger c && decide (1 ≤ intValue c) && decide (intValue c ≤ 6) then
            match jget fields "tags" with
            | some (.jarr ts) =>
              match mapOpt strOfJ ts with
              | some strs =>
                if 3 ≤ ts.length ∧ ts.length ≤ 8 then
                  some ⟨intValue s, intValue c, cleanTags strs⟩
                else none
              | none => none
            | _ => none
          else none
        | none => none
      else none
    | none => none
  | _ => none

/-- Whole-response validation of `analyze_articles_batch`: the response must
be an array of exactly `n` items each passing `validItem`; any deviation
yields the empty list (`return []`). -/
def validateAnalyses (resp : JVal) (n : Nat) : List VAnalysis :=
  match resp with
  | .jarr items =>
    if items.length = n then
      match mapOpt validItem items with
      | some vs => vs
      | none => []
    else []
  | _ => []

/-- Python `analysis.analyze_articles_batch` applied, as in
`run_article_analysis`, to the dict returned by `get_unanalysed_articles`.
Iterating the dict yields its keys; `create_scoring_prompt` unpacks each key
as `(article_id, title, content)`, which succeeds only for keys of length 3
(a string of length `k` unpacks as `k` one-character strings) and otherwise
raises `ValueError`, caught by the enclosing handler (`return []`).  `resp`
is the service response, `none` standing for a network or JSON-parse
failure. -/
def analyze_articles_batch (d : List (String × UEntry)) (resp : Option JVal) :
    List VAnalysis :=
  if d.all (fun kv => kv.1.length == 3) then
    match resp with
    | some r => validateAnalyses r d.length
    | none => []
  else []

/-- Way the analysis loop in `run_article_analysis` ends: normally with no
unanalysed articles left, by the consecutive-failure limit, or by an uncaught
exception re-raised by the outer handler. -/
inductive StopReason where
  | done : StopReason
  | failures : StopReason
  | crashed : StopReason
deriving Repr, DecidableEq

/-- Observable outcome of a terminating run of `run_article_analysis`:
stop reason, final consecutive-failure counter, `total_analyzed`, final store
and the trace of `time.sleep` durations. -/
structure RunOutcome where
  reason : StopReason
  consecutiveFailures : Nat
  totalAnalyzed : Nat
  store : Store
  sleeps : List Nat
deriving Repr, DecidableEq

/-- First character of a string as a string: the value bound to `article_id`
when a length-3 dict key is unpacked as a 3-tuple. -/
def firstCharStr (s : String) : String :=
  match s.data with
  | c :: _ => ⟨[c]⟩
  | [] => ""

/-- The `analysis_data` list built in `run_article_analysis` (lines 188–199):
pairs each dict key (unpacked, so `article_id` is its first character) with
the corresponding validated analysis, for indices below the response
length. -/
def analysisDataOf (keys : List String) (analyses : List VAnalysis) :
    List (String × Int × Int × List String) :=
  ((keys.take analyses.length).zip analyses).map
    (fun ka => (firstCharStr ka.1, ka.2.score, ka.2.category, ka.2.tags))

/-- One fuel step per loop iteration of `run_article_analysis` (lines
161–226).  On a failed batch the counter is bumped and a 5-second sleep is
taken while still under the limit; on a successful batch the counter is reset
and the analyses inserted, after which the run raises `TypeError` slicing the
dict at `unanalysed[:3]` (line 208) — before the 1-second pause of line 226 —
so the iteration ends the run with reason `crashed`.  The inner `crashed`
branch with an unchanged store models the `ValueError` that unpacking a
non-length-3 key at line 189 would raise; it is unreachable because a
successful batch already forced every key to have length 3. -/
def runLoopGo : Nat → Store → (Nat → Option JVal) → Nat → Nat → Nat → List Nat →
    Option RunOutcome
  | 0, _, _, _, _, _, _ => none
  | fuel + 1, st, resps, k, cf, total, sleeps =>
    if MAX_CONSECUTIVE_FAILURES ≤ cf then some ⟨.failures, cf, total, st, sleeps⟩
    else
      let un := get_unanalysed_articles st (some BATCH_SIZE)
      if un.isEmpty then some ⟨.done, cf, total, st, sleeps⟩
      else
        let analyses := analyze_articles_batch un (resps k)
        if analyses.isEmpty then
          let cf' := cf + 1
          let sleeps' := if cf' < MAX_CONSECUTIVE_FAILURES then sleeps ++ [5] else sleeps
          runLoopGo fuel st resps (k + 1) cf' total sleeps'
        else
          if un.all (fun kv => kv.1.length == 3) then
            let data := analysisDataOf (un.map (fun kv => kv.1)) analyses
            let inserted := insert_article_analysis st data
            some ⟨.crashed, 0, total + inserted.1, inserted.2, sleeps⟩
          else some ⟨.crashed, 0, total, st, sleeps⟩

/-- Python `analysis.run_article_analysis` on an initial store, a stream of
per-iteration service responses and a fuel bound on loop iterations (`none`
means the loop was still running after `fuel` iterations). -/
def run_article_analysis (st : Store) (resps : Nat → Option JVal) (fuel : Nat) :
    Option RunOutcome :=
  runLoopGo fuel st resps 0 0 0 []

/-! ### `summary.py`: the summary generator -/

/-- Python-call model for `database.get_recent_articles`, whose signature
declares three required positional parameters `(hours_back,
min_relevance_score, category)`: a call with any other number of positional
arguments raises `TypeError` before the function body runs. -/
def callGetRecentArticles (dtime : String → Int) (now : Int) (st : Store)
    (args : List Int) : Except String (List (String × REntry)) :=
  match args with
  | [hb, ms, cat] => .ok (get_recent_articles dtime now st hb ms cat)
  | _ => .error "TypeError: get_recent_articles() missing 1 required positional argument: category"

/-- Python `summary.run_summary_generator` (lines 163–211): after
`create_database()` it evaluates
`articles_dict = get_recent_articles(hours_back, min_relevance_score)`,
passing two positional arguments to the three-parameter function — the call
raises `TypeError`, which the `except` block logs and re-raises.  The
remainder of the body (per-store summary, report writing) is unreachable on
every input and is not modelled beyond the `.ok` constructor. -/
def run_summary_generator (dtime : String → Int) (now : Int) (st : Store)
    (hours_back min_relevance_score : Int) : Except String Unit :=
  match callGetRecentArticles dtime now st [hours_back, min_relevance_score] with
  | .error e => .error e
  | .ok _ => .ok ()

/-! ## Claim theorems -/

/-- C1: the spec scenario inserts three raw records for
`https://a.com/x?utm_source=tw` (source `reddit`), `https://a.com/x` (source
`hn`) and `https://a.com/x?ref=1` (source `rss`) under three distinct
`(source, local_id)` keys into an empty store and expects
`get_unanalysed_articles` to return one grouped entry carrying all three
records.  On the code the first insert succeeds but the second and third are
ignored by `INSERT OR IGNORE` (they violate the unique index
`idx_article_id_unique` on `article_id` created by `create_database`), so the
one grouped entry carries a single provenance record, not three. -/
def c1Insert1 : Bool × Store :=
  insert_article ⟨[], []⟩ "reddit" "reddit" "r1" none none
    "Title A" none "2024-01-01 10:00:00" "https://a.com/x?utm_source=tw"

def c1Insert2 : Bool × Store :=
  insert_article c1Insert1.2 "hackernews" "hn" "h1" none none
    "Title B" none "2024-01-01 11:00:00" "https://a.com/x"

def c1Insert3 : Bool × Store :=
  insert_article c1Insert2.2 "rss" "rss" "s1" none none
    "Title C" none "2024-01-01 12:00:00" "https://a.com/x?ref=1"

theorem C1_unique_index_defeats_merge :
    c1Insert1.1 = true ∧ c1Insert2.1 = false ∧ c1Insert3.1 = false ∧
    c1Insert3.2.articles.length = 1 ∧
    (get_unanalysed_articles c1Insert3.2 none).length = 1 ∧
    (get_unanalysed_articles c1Insert3.2 none).map
      (fun kv => kv.2.sources.length) = [1] := by
  decide

/-- C4: `insert_article` does reject blank fields and duplicate
`(source, local_id)` keys without raising, but it does not persist *exactly*
when `(source, local_id)` is fresh: a second record with a fresh key whose
URL normalises to an already-stored `article_id` is also ignored (unique
index on `article_id`).  The conjuncts evaluate the code at a blank-title
record, at the failing fresh-key record, and at an exact duplicate key. -/
def c4Insert1 : Bool × Store :=
  insert_article ⟨[], []⟩ "hackernews" "hn" "1" none none
    "Title" none "2024-01-01" "https://a.com/x"

def c4InsertFresh : Bool × Store :=
  insert_article c4Insert1.2 "reddit" "reddit" "2" none none
    "Other title" none "2024-01-02" "https://a.com/x?utm_source=tw"

def c4InsertDup : Bool × Store :=
  insert_article c4Insert1.2 "hackernews" "hn" "1" none none
    "Repost" none "2024-01-03" "https://b.com/y"

def c4InsertBlank : Bool × Store :=
  insert_article ⟨[], []⟩ "p" "s" "i" none none
    "<b> </b>" none "2024-01-01" "https://a.com/x"

theorem C4_insert_blocked_despite_fresh_key :
    c4Insert1.1 = true ∧ c4Insert1.2.articles.length = 1 ∧
    (c4Insert1.2.articles.any (fun r => r.source == "reddit" && r.id == "2")) = false ∧
    c4InsertFresh.1 = false ∧ c4InsertFresh.2 = c4Insert1.2 ∧
    c4InsertDup.1 = false ∧ c4InsertDup.2 = c4Insert1.2 ∧
    c4InsertBlank.1 = false ∧ c4InsertBlank.2 = (⟨[], []⟩ : Store) := by
  decide

/-- C10: the digest generator never processes any category:
`run_summary_generator` passes two positional arguments to the
three-parameter `get_recent_articles`, so every invocation raises `TypeError`
(re-raised by its handler) and no document — per-category or otherwise — is
produced.  (`cli.py` additionally passes three arguments to the two-parameter
`run_summary_generator` itself.) -/
theorem C10_run_summary_generator_raises
    (dtime : String → Int) (now : Int) (st : Store) (hb ms : Int) :
    run_summary_generator dtime now st hb ms =
      .error "TypeError: get_recent_articles() missing 1 required positional argument: category" :=
  rfl

/-! ### Helper lemmas: digest length -/

theorem length_flatten_map_byteHex (bs : List Nat) :
    ((bs.map byteHex).flatten).length = 2 * bs.length := by
  induction bs with
  | nil => rfl
  | cons b bs ih =>
    simp only [List.map_cons, List.flatten_cons, List.length_append, ih, byteHex,
      List.length_cons, List.length_nil]
    omega

theorem md5Bytes_length (msg : List Nat) : (md5Bytes msg).length = 16 := by
  simp [md5Bytes, le4]

theorem md5hex_length (s : String) : (md5hex s).length = 32 := by
  show ((md5Bytes (strBytes s)).map byteHex).flatten.length = 32
  rw [length_flatten_map_byteHex, md5Bytes_length]

/-- C9: `generate_article_id` is total and deterministic: the empty URL maps
to the empty sentinel id, and every non-empty URL maps (without any failure
value — the embedding is a total function, the `urlparse` failure case
falling back to hashing the raw URL) to a 32-character hex digest; equal
inputs trivially yield equal ids. -/
theorem C9_generate_article_id_total :
    generate_article_id "" = "" ∧
    ∀ u : String, u ≠ "" →
      generate_article_id u = generate_article_id u ∧
      (generate_article_id u).length = 32 := by
  refine ⟨rfl, fun u hu => ⟨rfl, ?_⟩⟩
  unfold generate_article_id genArticleIdWith
  rw [if_neg hu]
  cases pyUrlparse (pyStrip (pyLower u)) with
  | none => exact md5hex_length u
  | some p => exact md5hex_length (cleanUrlOf p)

/-- C9 witness at a concrete URL. -/
theorem C9_witness :
    (("https://a.com/x" : String) ≠ "") ∧
    (generate_article_id "https://a.com/x").length = 32 :=
  ⟨by decide, (C9_generate_article_id_total.2 "https://a.com/x" (by decide)).2⟩

/-! ### Helper lemmas: URL identity (C3) -/

/-- Claim-side predicate: two non-empty URLs that parse successfully, agree on
scheme, netloc and path, and whose parsed query parameters agree after the
tracking keys are removed — "differ only in tracking query parameters". -/
def differOnlyInTrackingB (u1 u2 : String) : Bool :=
  !(u1 == "") && !(u2 == "") &&
    (match pyUrlparse (pyStrip (pyLower u1)), pyUrlparse (pyStrip (pyLower u2)) with
     | some p1, some p2 =>
       p1.scheme == p2.scheme && p1.netloc == p2.netloc && p1.path == p2.path &&
         decide (cleanedParams p1.query = cleanedParams p2.query)
     | _, _ => false)

/-- Claim-side predicate: two non-empty URLs that parse successfully, agree on
scheme and netloc, and have two distinct paths. -/
def samePrefixDistinctPathB (u1 u2 : String) : Bool :=
  !(u1 == "") && !(u2 == "") &&
    (match pyUrlparse (pyStrip (pyLower u1)), pyUrlparse (pyStrip (pyLower u2)) with
     | some p1, some p2 =>
       p1.scheme == p2.scheme && p1.netloc == p2.netloc && !(p1.path == p2.path)
     | _, _ => false)

theorem cleanUrlOf_congr {p1 p2 : PyURL} (hs : p1.scheme = p2.scheme)
    (hn : p1.netloc = p2.netloc) (hp : p1.path = p2.path)
    (hq : cleanedParams p1.query = cleanedParams p2.query) :
    cleanUrlOf p1 = cleanUrlOf p2 := by
  simp only [cleanUrlOf, cleanedQueryOf, hs, hn, hp, hq]

/-- Optional-query suffix of the clean URL, at the character level. -/
def optQData (cq : String) : List Char :=
  if cq = "" then [] else '?' :: cq.data

theorem cleanUrlOf_data (p : PyURL) :
    (cleanUrlOf p).data =
      p.scheme.data ++ ("://".data ++ (p.netloc.data ++
        (p.path.data ++ optQData (cleanedQueryOf p.query)))) := by
  by_cases h : cleanedQueryOf p.query = ""
  · simp [cleanUrlOf, optQData, h, String.data_append]
  · simp [cleanUrlOf, optQData, h, String.data_append]

theorem qfree_append_cancel :
    ∀ (a b r s : List Char), (∀ c ∈ a, c ≠ '?') → (∀ c ∈ b, c ≠ '?') →
      (r = [] ∨ ∃ t, r = '?' :: t) → (s = [] ∨ ∃ t, s = '?' :: t) →
      a ++ r = b ++ s → a = b := by
  intro a
  induction a with
  | nil =>
    intro b r s _ hb hr _ h
    cases b with
    | nil => rfl
    | cons d bd =>
      exfalso
      rcases hr with rfl | ⟨t, rfl⟩
      · exact (List.cons_ne_nil d (bd ++ s)) h.symm
      · have hd : d = '?' := by
          have := congrArg List.head? h
          simp at this
          exact this.symm
        exact hb d (List.mem_cons_self d bd) hd
  | cons e ea ih =>
    intro b r s ha hb hr hs h
    cases b with
    | nil =>
      exfalso
      rcases hs with rfl | ⟨t, rfl⟩
      · exact (List.cons_ne_nil e (ea ++ r)) h
      · have he : e = '?' := by
          have := congrArg List.head? h
          simp at this
          exact this
        exact ha e (List.mem_cons_self e ea) he
    | cons d bd =>
      simp only [List.cons_append, List.cons.injEq] at h
      have := ih bd r s (fun c hc => ha c (List.mem_cons_of_mem e hc))
        (fun c hc => hb c (List.mem_cons_of_mem d hc)) hr hs h.2
      rw [h.1, this]

theorem mem_splitParamsPath {c : Char} {p : List Char}
    (hc : c ∈ splitParamsPath p) : c ∈ p := by
  unfold splitParamsPath at hc
  split at hc
  · split at hc
    · split at hc
      · rcases List.mem_append.1 hc with h | h
        · exact List.take_subset _ _ h
        · have h1 := List.takeWhile_subset _ h
          have h2 := List.mem_reverse.1 h1
          have h3 := List.takeWhile_subset _ h2
          exact List.mem_reverse.1 h3
      · exact hc
    · exact List.takeWhile_subset _ hc
  · exact hc

theorem pyUrlparse_path_qfree {s : String} {p : PyURL}
    (h : pyUrlparse s = some p) : ∀ c ∈ p.path.data, c ≠ '?' := by
  unfold pyUrlparse at h
  split at h
  · have hxp := Option.some.inj h
    have hpath : splitParamsPath
        ((splitFragment (splitNetloc (splitScheme s.data).2).2).1.takeWhile
          (fun c => c != '?')) = p.path.data :=
      congrArg (fun u => u.path.data) hxp
    intro c hc hcq
    rw [← hpath] at hc
    have h1 := mem_splitParamsPath hc
    have h2 := List.mem_takeWhile_imp h1
    rw [hcq] at h2
    simp at h2
  · exact absurd h (by simp)

/-- Structure of the optional-query suffix. -/
theorem optQData_shape (cq : String) :
    optQData cq = [] ∨ ∃ t, optQData cq = '?' :: t := by
  by_cases h : cq = "" <;> simp [optQData, h]

theorem cleanUrlOf_path_inj {p1 p2 : PyURL} (hs : p1.scheme = p2.scheme)
    (hn : p1.netloc = p2.netloc)
    (h1 : ∀ c ∈ p1.path.data, c ≠ '?') (h2 : ∀ c ∈ p2.path.data, c ≠ '?')
    (heq : cleanUrlOf p1 = cleanUrlOf p2) : p1.path = p2.path := by
  have hd := congrArg String.data heq
  rw [cleanUrlOf_data, cleanUrlOf_data, hs, hn] at hd
  have hd1 := List.append_cancel_left hd
  have hd2 := List.append_cancel_left hd1
  have hd3 := List.append_cancel_left hd2
  exact String.ext (qfree_append_cancel _ _ _ _ h1 h2
    (optQData_shape _) (optQData_shape _) hd3)

/-- C3: tracking-parameter invariance and path separation of the article
identity.  First part (over the concrete MD5-based `generate_article_id`):
two URLs differing only in tracking parameters get the same id.  Second part:
two URLs with the same scheme and netloc but distinct paths get different
ids, for the id computation `genArticleIdWith h` taken over any injective
(collision-free) hash `h` — collision-freeness is an idealising hypothesis,
never provable of the concrete 128-bit MD5 (pigeonhole). -/
theorem C3_article_id_identity (h : String → String)
    (hinj : Function.Injective h) :
    (∀ u1 u2, differOnlyInTrackingB u1 u2 = true →
      generate_article_id u1 = generate_article_id u2) ∧
    (∀ u1 u2, samePrefixDistinctPathB u1 u2 = true →
      genArticleIdWith h u1 ≠ genArticleIdWith h u2) := by
  constructor
  · intro u1 u2 hd
    unfold differOnlyInTrackingB at hd
    simp only [Bool.and_eq_true, Bool.not_eq_true', beq_eq_false_iff_ne] at hd
    obtain ⟨⟨h1, h2⟩, hm⟩ := hd
    split at hm
    case h_2 => exact absurd hm (by simp)
    case h_1 p1 p2 heq1 heq2 =>
      simp only [Bool.and_eq_true, beq_iff_eq, decide_eq_true_eq] at hm
      obtain ⟨⟨⟨hsc, hnl⟩, hpa⟩, hqu⟩ := hm
      unfold generate_article_id genArticleIdWith
      rw [if_neg h1, if_neg h2, heq1, heq2]
      exact congrArg md5hex (cleanUrlOf_congr hsc hnl hpa hqu)
  · intro u1 u2 hd
    unfold samePrefixDistinctPathB at hd
    simp only [Bool.and_eq_true, Bool.not_eq_true', beq_eq_false_iff_ne] at hd
    obtain ⟨⟨h1, h2⟩, hm⟩ := hd
    split at hm
    case h_2 => exact absurd hm (by simp)
    case h_1 p1 p2 heq1 heq2 =>
      simp only [Bool.and_eq_true, beq_iff_eq, Bool.not_eq_true',
        beq_eq_false_iff_ne] at hm
      obtain ⟨⟨hsc, hnl⟩, hpa⟩ := hm
      unfold genArticleIdWith
      rw [if_neg h1, if_neg h2, heq1, heq2]
      intro hid
      exact hpa (cleanUrlOf_path_inj hsc hnl
        (pyUrlparse_path_qfree heq1) (pyUrlparse_path_qfree heq2) (hinj hid))

/-- C3 witness: the spec example pair for tracking invariance and a concrete
distinct-path pair, hypotheses discharged by evaluation (injective hash
instantiated with the identity function). -/
theorem C3_witness :
    differOnlyInTrackingB "https://x.com/a?utm_source=foo" "https://x.com/a" = true ∧
    samePrefixDistinctPathB "https://x.com/a" "https://x.com/b" = true ∧
    generate_article_id "https://x.com/a?utm_source=foo" =
      generate_article_id "https://x.com/a" ∧
    genArticleIdWith (fun s => s) "https://x.com/a" ≠
      genArticleIdWith (fun s => s) "https://x.com/b" := by
  refine ⟨by decide, by decide, ?_, ?_⟩
  · exact (C3_article_id_identity (fun s => s) (fun a b hab => hab)).1
      "https://x.com/a?utm_source=foo" "https://x.com/a" (by decide)
  · exact (C3_article_id_identity (fun s => s) (fun a b hab => hab)).2
      "https://x.com/a" "https://x.com/b" (by decide)

/-! ### Helper lemmas: grouped reads -/

theorem mem_upsertGroup_keys {α β : Type} {key : α → String} {init : α → β}
    {add : β → α → β} {acc : List (String × β)} {x : α} {kv : String × β}
    (h : kv ∈ upsertGroup key init add acc x) :
    (∃ kv0 ∈ acc, kv.1 = kv0.1) ∨ kv.1 = key x := by
  unfold upsertGroup at h
  split at h
  · obtain ⟨kv0, hkv0, heq⟩ := List.mem_map.1 h
    left
    refine ⟨kv0, hkv0, ?_⟩
    rw [← heq]
    split <;> rfl
  · rcases List.mem_append.1 h with h | h
    · exact Or.inl ⟨kv, h, rfl⟩
    · right
      rw [List.mem_singleton.1 h]

theorem groupByKey_keys {α β : Type} {key : α → String} {init : α → β}
    {add : β → α → β} :
    ∀ (l : List α) (acc : List (String × β)) (kv : String × β),
      kv ∈ l.foldl (upsertGroup key init add) acc →
      (∃ kv0 ∈ acc, kv.1 = kv0.1) ∨ ∃ x ∈ l, key x = kv.1 := by
  intro l
  induction l with
  | nil => exact fun acc kv h => Or.inl ⟨kv, h, rfl⟩
  | cons x l ih =>
    intro acc kv h
    rcases ih (upsertGroup key init add acc x) kv h with ⟨kv0, hkv0, heq⟩ | ⟨y, hy, hk⟩
    · rcases mem_upsertGroup_keys hkv0 with ⟨kv1, hkv1, heq1⟩ | hx
      · exact Or.inl ⟨kv1, hkv1, heq.trans heq1⟩
      · exact Or.inr ⟨x, List.mem_cons_self x l, (heq.trans hx).symm⟩
    · exact Or.inr ⟨y, List.mem_cons_of_mem x hy, hk⟩

theorem mem_insertByDateDesc {a r : Row} :
    ∀ {l : List Row}, a ∈ insertByDateDesc r l ↔ a = r ∨ a ∈ l := by
  intro l
  induction l with
  | nil => simp [insertByDateDesc]
  | cons x xs ih =>
    unfold insertByDateDesc
    split
    · simp
    · simp only [List.mem_cons, ih]
      tauto

theorem mem_sortByDateDesc {a : Row} :
    ∀ {l : List Row}, a ∈ sortByDateDesc l ↔ a ∈ l := by
  intro l
  induction l with
  | nil => simp [sortByDateDesc]
  | cons x xs ih =>
    show a ∈ insertByDateDesc x (sortByDateDesc xs) ↔ _
    rw [mem_insertByDateDesc]
    simp only [List.mem_cons, ih]

/-! ### Helper lemmas: the analysis loop (C2) -/

/-- Store invariant: every stored `article_id` is a 32-character digest (the
shape `insert_article` always stores, `generate_article_id` producing
32-character hex on every non-empty URL). -/
def ArticleIdsLen32 (st : Store) : Bool :=
  st.articles.all (fun r => r.article_id.length == 32)

theorem unanalysed_keys_len {st : Store} (hlen : ArticleIdsLen32 st = true)
    (limit : Option Nat) :
    ∀ kv ∈ get_unanalysed_articles st limit, kv.1.length = 32 := by
  intro kv hkv
  have hmem := groupByKey_keys _ [] kv hkv
  rcases hmem with ⟨kv0, hkv0, _⟩ | ⟨r, hr, hk⟩
  · exact absurd hkv0 (List.not_mem_nil kv0)
  · have hrs : r ∈ st.articles := by
      have hr2 : r ∈ unanalysedRows st := by
        cases limit with
        | none => exact hr
        | some n => exact List.take_subset _ _ hr
      have hr3 := mem_sortByDateDesc.1 hr2
      exact (List.mem_filter.1 hr3).1
    have := List.all_eq_true.1 hlen r hrs
    rw [← hk]
    simpa using this

theorem analyze_unanalysed_nil {st : Store} (hlen : ArticleIdsLen32 st = true)
    (limit : Option Nat) (resp : Option JVal)
    (hne : get_unanalysed_articles st limit ≠ []) :
    analyze_articles_batch (get_unanalysed_articles st limit) resp = [] := by
  cases hd : get_unanalysed_articles st limit with
  | nil => exact absurd hd hne
  | cons kv rest =>
    have hk : kv.1.length = 32 :=
      unanalysed_keys_len hlen limit kv (hd ▸ List.mem_cons_self kv rest)
    unfold analyze_articles_batch
    simp [List.all_cons, hk]

theorem runLoopGo_allfail {st : Store} {resps : Nat → Option JVal}
    (hlen : ArticleIdsLen32 st = true)
    (hne : get_unanalysed_articles st (some BATCH_SIZE) ≠ []) :
    ∀ fuel cf k total sleeps, cf ≤ 3 → 4 - cf ≤ fuel →
      runLoopGo fuel st resps k cf total sleeps =
        some ⟨.failures, 3, total, st, sleeps ++ List.replicate (2 - cf) 5⟩ := by
  intro fuel
  induction fuel with
  | zero => intro cf k total sleeps hcf hfuel; omega
  | succ fuel ih =>
    intro cf k total sleeps hcf hfuel
    unfold runLoopGo
    by_cases h3 : MAX_CONSECUTIVE_FAILURES ≤ cf
    · have hcf3 : cf = 3 := by
        have : (3 : Nat) ≤ cf := h3
        omega
      subst hcf3
      simp [h3, List.replicate]
    · rw [if_neg h3]
      have hun : (get_unanalysed_articles st (some BATCH_SIZE)).isEmpty = false := by
        cases hq : get_unanalysed_articles st (some BATCH_SIZE) with
        | nil => exact absurd hq hne
        | cons a b => rfl
      have hana := analyze_unanalysed_nil hlen (some BATCH_SIZE) (resps k) hne
      dsimp only
      rw [hun, hana]
      simp only [Bool.false_eq_true, if_false, List.isEmpty_nil, if_true]
      have hcflt : cf < 3 := by
        have : ¬ (3 : Nat) ≤ cf := h3
        omega
      rw [ih (cf + 1) (k + 1) total _ (by omega) (by omega)]
      have hcase : cf = 0 ∨ cf = 1 ∨ cf = 2 := by omega
      rcases hcase with rfl | rfl | rfl <;>
        simp [MAX_CONSECUTIVE_FAILURES, List.replicate]

/-- C2: whenever every stored `article_id` has digest length 32 (as every row
written by `insert_article` does), `analyze_articles_batch` returns the empty
list on every non-empty mapping produced by `get_unanalysed_articles` — the
prompt builder unpacks each 32-character dict key as a 3-tuple, raises, and
the handler returns `[]` — and consequently `run_article_analysis` persists
nothing and stops at the consecutive-failure limit (final counter 3, zero
analyses, store unchanged, two 5-second retry sleeps). -/
theorem C2_batch_always_fails (st : Store) (hlen : ArticleIdsLen32 st = true) :
    (∀ limit resp, get_unanalysed_articles st limit ≠ [] →
      analyze_articles_batch (get_unanalysed_articles st limit) resp = []) ∧
    (get_unanalysed_articles st (some BATCH_SIZE) ≠ [] →
      ∀ resps fuel, 4 ≤ fuel →
        run_article_analysis st resps fuel =
          some ⟨.failures, 3, 0, st, [5, 5]⟩) := by
  constructor
  · exact fun limit resp hne => analyze_unanalysed_nil hlen limit resp hne
  · intro hne resps fuel hfuel
    unfold run_article_analysis
    rw [runLoopGo_allfail hlen hne fuel 0 0 0 [] (by omega) (by omega)]
    simp [List.replicate]

/-- Store used by the C2 witness: one raw row with a 32-character id. -/
def c2Row : Row :=
  ⟨"rss", "hn", "1", none, none, "T", none, "2024-01-01",
   "aaaaaaaaaaaaaaaaaaaaaaaaaaaaaaaa", "https://a.com/x"⟩

/-- C2 witness store. -/
def c2Store : Store := ⟨[c2Row], []⟩

/-- C2 witness: hypotheses discharged at a concrete one-row store. -/
theorem C2_witness :
    ArticleIdsLen32 c2Store = true ∧
    get_unanalysed_articles c2Store (some BATCH_SIZE) ≠ [] ∧
    run_article_analysis c2Store (fun _ => some (.jarr [])) 4 =
      some ⟨.failures, 3, 0, c2Store, [5, 5]⟩ :=
  ⟨by decide, by decide,
   (C2_batch_always_fails c2Store (by decide)).2 (by decide)
     (fun _ => some (.jarr [])) 4 (by decide)⟩

/-! ### Helper lemmas: response validation (C5, C8) -/

theorem mapOpt_length {α β : Type} {f : α → Option β} :
    ∀ {l : List α} {bs : List β}, mapOpt f l = some bs → bs.length = l.length := by
  intro l
  induction l with
  | nil => intro bs h; cases h; rfl
  | cons a l ih =>
    intro bs h
    unfold mapOpt at h
    split at h
    case h_1 b bs0 hfa hrest =>
      cases h
      simp [ih hrest]
    case h_2 => exact absurd h (by simp)

theorem mapOpt_forall {α β : Type} {f : α → Option β} :
    ∀ {l : List α} {bs : List β}, mapOpt f l = some bs →
      ∀ a ∈ l, ∃ b ∈ bs, f a = some b := by
  intro l
  induction l with
  | nil => intro bs _ a ha; exact absurd ha (List.not_mem_nil a)
  | cons a l ih =>
    intro bs h x hx
    unfold mapOpt at h
    split at h
    case h_1 b bs0 hfa hrest =>
      cases h
      rcases List.mem_cons.1 hx with rfl | hx2
      · exact ⟨b, List.mem_cons_self b bs0, hfa⟩
      · obtain ⟨b2, hb2, hf2⟩ := ih hrest x hx2
        exact ⟨b2, List.mem_cons_of_mem b hb2, hf2⟩
    case h_2 => exact absurd h (by simp)

theorem mapOpt_mem {α β : Type} {f : α → Option β} :
    ∀ {l : List α} {bs : List β}, mapOpt f l = some bs →
      ∀ b ∈ bs, ∃ a ∈ l, f a = some b := by
  intro l
  induction l with
  | nil =>
    intro bs h b hb
    cases h
    exact absurd hb (List.not_mem_nil b)
  | cons a l ih =>
    intro bs h b hb
    unfold mapOpt at h
    split at h
    case h_1 b0 bs0 hfa hrest =>
      cases h
      rcases List.mem_cons.1 hb with rfl | hb2
      · exact ⟨a, List.mem_cons_self a l, hfa⟩
      · obtain ⟨a2, ha2, hf2⟩ := ih hrest b hb2
        exact ⟨a2, List.mem_cons_of_mem a ha2, hf2⟩
    case h_2 => exact absurd h (by simp)

theorem strOfJ_some {t : JVal} {w : String} (h : strOfJ t = some w) : t = .jstr w := by
  cases t <;> simp [strOfJ] at h
  rw [h]

/-- Dissection of a successful `validItem`. -/
theorem validItem_some {v : JVal} {a : VAnalysis} (h : validItem v = some a) :
    ∃ fields, v = .jobj fields ∧
      (∃ s, jget fields "score" = some s ∧ isNumber s = true ∧
        0 ≤ numValue s ∧ numValue s ≤ 100 ∧ a.score = intValue s) ∧
      (∃ c, jget fields "category" = some c ∧ isInteger c = true ∧
        1 ≤ intValue c ∧ intValue c ≤ 6 ∧ a.category = intValue c) ∧
      (∃ ts strs, jget fields "tags" = some (.jarr ts) ∧
        mapOpt strOfJ ts = some strs ∧ 3 ≤ ts.length ∧ ts.length ≤ 8 ∧
        a.tags = cleanTags strs) := by
  unfold validItem at h
  split at h
  case h_2 => exact absurd h (by simp)
  case h_1 fields =>
    split at h
    case h_2 => exact absurd h (by simp)
    case h_1 s hs =>
      split at h
      case isFalse => exact absurd h (by simp)
      case isTrue hsok =>
        split at h
        case h_2 => exact absurd h (by simp)
        case h_1 c hc =>
          split at h
          case isFalse => exact absurd h (by simp)
          case isTrue hcok =>
            split at h
            case h_2 => exact absurd h (by simp)
            case h_1 ts hts =>
              split at h
              case h_2 => exact absurd h (by simp)
              case h_1 strs hstrs =>
                split at h
                case isFalse => exact absurd h (by simp)
                case isTrue hlen =>
                  have ha := Option.some.inj h
                  simp only [Bool.and_eq_true, decide_eq_true_eq] at hsok hcok
                  refine ⟨fields, rfl,
                    ⟨s, hs, hsok.1.1, hsok.1.2, hsok.2, ?_⟩,
                    ⟨c, hc, hcok.1.1, hcok.1.2, hcok.2, ?_⟩,
                    ⟨ts, strs, hts, hstrs, hlen.1, hlen.2, ?_⟩⟩ <;>
                    rw [← ha]

/-- Claim-side shape of one response item: an object whose `score` is numeric
in `[0, 100]`, whose `category` is an integer in `[1, 6]` (Python booleans
being integers), and whose `tags` is an array of 3–8 strings. -/
def WellShapedItem (v : JVal) : Prop :=
  ∃ fields, v = .jobj fields ∧
    (∃ s, jget fields "score" = some s ∧ isNumber s = true ∧
      0 ≤ numValue s ∧ numValue s ≤ 100) ∧
    (∃ c, jget fields "category" = some c ∧ isInteger c = true ∧
      1 ≤ intValue c ∧ intValue c ≤ 6) ∧
    (∃ ts, jget fields "tags" = some (.jarr ts) ∧ (∀ t ∈ ts, ∃ w, t = .jstr w) ∧
      3 ≤ ts.length ∧ ts.length ≤ 8)

/-- Claim-side shape of the whole response: an array of exactly `n`
well-shaped objects. -/
def WellShapedResponse (resp : JVal) (n : Nat) : Prop :=
  ∃ items, resp = .jarr items ∧ items.length = n ∧ ∀ v ∈ items, WellShapedItem v

/-- C5: `analyze_articles_batch`'s validation returns a non-empty result only
when the service response is an array of exactly `n` objects each carrying a
numeric score in 0–100, an integer category in 1–6 and a tags list of 3–8
strings; contrapositively, any single deviation makes the whole call return
the empty list, so no item of a deviating response is ever persisted. -/
theorem C5_validation_all_or_nothing (resp : JVal) (n : Nat)
    (h : validateAnalyses resp n ≠ []) : WellShapedResponse resp n := by
  unfold validateAnalyses at h
  split at h
  case h_2 => exact absurd rfl h
  case h_1 items =>
    split at h
    case isFalse => exact absurd rfl h
    case isTrue hlen =>
      split at h
      case h_2 => exact absurd rfl h
      case h_1 vs hvs =>
        refine ⟨items, rfl, hlen, fun v hv => ?_⟩
        obtain ⟨a, _, hva⟩ := mapOpt_forall hvs v hv
        obtain ⟨fields, rfl, ⟨s, hs⟩, ⟨c, hc⟩, ⟨ts, strs, hts, hstrs, h3, h8, _⟩⟩ :=
          validItem_some hva
        exact ⟨fields, rfl, ⟨s, hs.1, hs.2.1, hs.2.2.1, hs.2.2.2.1⟩,
          ⟨c, hc.1, hc.2.1, hc.2.2.1, hc.2.2.2.1⟩,
          ⟨ts, hts, fun t ht =>
            (mapOpt_forall hstrs t ht).elim (fun w hw => ⟨w, strOfJ_some hw.2⟩),
            h3, h8⟩⟩

/-- Response used by the C5 witness. -/
def c5Resp : JVal :=
  .jarr [.jobj [("score", .jint 92), ("category", .jint 2),
                ("tags", .jarr [.jstr "ai", .jstr "ml", .jstr "research"])]]

/-- C5 witness: the non-emptiness hypothesis discharged by evaluation. -/
theorem C5_witness :
    validateAnalyses c5Resp 1 ≠ [] ∧ WellShapedResponse c5Resp 1 :=
  ⟨by decide, C5_validation_all_or_nothing c5Resp 1 (by decide)⟩

/-! ### Helper lemmas: tag cleaning (C8) -/

theorem char_toNat_ofNat_lower {m : Nat} (h1 : 97 ≤ m) (h2 : m ≤ 122) :
    (Char.ofNat m).toNat = m := by
  interval_cases m <;> decide

theorem toLower_idem (c : Char) : c.toLower.toLower = c.toLower := by
  by_cases h : c.toNat ≥ 65 ∧ c.toNat ≤ 90
  · have h1 : c.toLower = Char.ofNat (c.toNat + 32) := by
      unfold Char.toLower
      rw [if_pos h]
    have h2 : (Char.ofNat (c.toNat + 32)).toNat = c.toNat + 32 :=
      char_toNat_ofNat_lower (by omega) (by omega)
    rw [h1]
    unfold Char.toLower
    rw [if_neg (by rw [h2]; omega)]
  · have h1 : c.toLower = c := by
      unfold Char.toLower
      rw [if_neg h]
    rw [h1, h1]

theorem pyLower_idem (s : String) : pyLower (pyLower s) = pyLower s := by
  unfold pyLower
  apply String.ext
  show (s.data.map Char.toLower).map Char.toLower = s.data.map Char.toLower
  rw [List.map_map]
  exact List.map_congr_left (fun c _ => toLower_idem c)

theorem pyLower_ne_empty {s : String} (h : s ≠ "") : pyLower s ≠ "" := by
  intro hc
  apply h
  apply String.ext
  have : (pyLower s).data = [] := congrArg String.data hc
  have h2 : s.data.map Char.toLower = [] := this
  exact List.map_eq_nil_iff.1 h2

theorem mem_cleanTags {t : String} {l : List String} (h : t ∈ cleanTags l) :
    ∃ t0 ∈ l, pyStrip t0 ≠ "" ∧ t = pyLower (pyStrip t0) := by
  unfold cleanTags at h
  obtain ⟨t0, ht0, hf⟩ := List.mem_filterMap.1 h
  refine ⟨t0, ht0, ?_⟩
  split at hf
  · exact absurd hf (by simp)
  · exact ⟨by assumption, (Option.some.inj hf).symm⟩

theorem cleanTags_length_le (l : List String) : (cleanTags l).length ≤ l.length :=
  List.length_filterMap_le _ _

theorem cleanTags_length_full :
    ∀ l : List String, (∀ t ∈ l, pyStrip t ≠ "") →
      (cleanTags l).length = l.length := by
  intro l
  induction l with
  | nil => intro _; rfl
  | cons t l ih =>
    intro hl
    have hne := hl t (List.mem_cons_self t l)
    unfold cleanTags
    rw [List.filterMap_cons]
    simp only [if_neg hne]
    show (cleanTags l).length + 1 = l.length + 1
    rw [ih (fun x hx => hl x (List.mem_cons_of_mem t hx))]

/-- Response used by the C8 counterexample and witness: `tags` has three
entries, one of which is whitespace-only. -/
def c8BadResp : JVal :=
  .jarr [.jobj [("score", .jint 92), ("category", .jint 2),
                ("tags", .jarr [.jstr "ai", .jstr "ml", .jstr " "])]]

/-- C8 counterexample: the whitespace-only tag passes the 3–8 length check
but is then filtered out, leaving a validated analysis with only two tags —
refuting "every validated analysis has a tags list of between 3 and 8
entries". -/
theorem C8_counterexample :
    validateAnalyses c8BadResp 1 = [⟨92, 2, ["ai", "ml"]⟩] ∧
    (([⟨92, 2, ["ai", "ml"]⟩] : List VAnalysis).all
      (fun a => decide (3 ≤ a.tags.length))) = false := by
  decide

/-- C8 amended: every validated analysis has at most 8 tags, each a non-empty
lowercase string; the submitted tag list had 3–8 entries (checked before
cleaning), and when no submitted tag is whitespace-only the cleaned list
still has 3–8 entries. -/
theorem C8_amended_tags_shape (resp : JVal) (n : Nat) (a : VAnalysis)
    (h : a ∈ validateAnalyses resp n) :
    a.tags.length ≤ 8 ∧
    (∀ t ∈ a.tags, t ≠ "" ∧ pyLower t = t) ∧
    ∃ raw : List String, 3 ≤ raw.length ∧ raw.length ≤ 8 ∧
      a.tags = cleanTags raw ∧
      ((∀ t ∈ raw, pyStrip t ≠ "") → 3 ≤ a.tags.length) := by
  have hv : ∃ v, validItem v = some a := by
    unfold validateAnalyses at h
    split at h
    case h_2 => exact absurd h (List.not_mem_nil a)
    case h_1 items =>
      split at h
      case isFalse => exact absurd h (List.not_mem_nil a)
      case isTrue =>
        split at h
        case h_2 => exact absurd h (List.not_mem_nil a)
        case h_1 vs hvs =>
          obtain ⟨v, _, hva⟩ := mapOpt_mem hvs a h
          exact ⟨v, hva⟩
  obtain ⟨v, hva⟩ := hv
  obtain ⟨fields, rfl, _, _, ⟨ts, strs, hts, hstrs, h3, h8, htags⟩⟩ :=
    validItem_some hva
  have hlen : strs.length = ts.length := mapOpt_length hstrs
  refine ⟨?_, ?_, strs, by omega, by omega, htags, ?_⟩
  · rw [htags]
    calc (cleanTags strs).length ≤ strs.length := cleanTags_length_le strs
      _ ≤ 8 := by omega
  · intro t ht
    rw [htags] at ht
    obtain ⟨t0, _, hne, rfl⟩ := mem_cleanTags ht
    exact ⟨pyLower_ne_empty hne, pyLower_idem (pyStrip t0)⟩
  · intro hall
    rw [htags, cleanTags_length_full strs hall]
    omega

/-- C8 amended witness: the amended claim instantiated at a fully clean
response. -/
theorem C8_amended_witness :
    (⟨92, 2, ["ai", "ml", "research"]⟩ : VAnalysis) ∈ validateAnalyses c5Resp 1 ∧
    (⟨92, 2, ["ai", "ml", "research"]⟩ : VAnalysis).tags.length ≤ 8 :=
  ⟨by decide,
   (C8_amended_tags_shape c5Resp 1 ⟨92, 2, ["ai", "ml", "research"]⟩ (by decide)).1⟩

/-! ### Helper lemmas: loop termination shape (C6) -/

/-- Store used by the C6 counterexample: one raw row whose `article_id` has
length 3 (a legal TEXT value for the column, outside what `insert_article`
itself writes), making the batch-key unpacking succeed. -/
def c6Row : Row :=
  ⟨"rss", "hn", "1", none, none, "T", none, "2024-01-01", "abc", "https://a.com/x"⟩

/-- C6 counterexample store. -/
def c6Store : Store := ⟨[c6Row], []⟩

/-- C6 counterexample: on a store whose single unanalysed row has a
length-3 `article_id` and a well-formed service response, the batch
validates, the failure counter is reset and the analyses are inserted — and
the run then terminates by the uncaught `TypeError` of `unanalysed[:3]`
(reason `crashed`), with unanalysed articles still present, zero consecutive
failures, and no 1-second pause after the successful batch (empty sleep
trace).  This refutes "terminates exactly when either three consecutive
whole-batch failures have occurred or `get_unanalysed_articles` returns
empty" and "a 1-second pause follows every successful batch". -/
theorem C6_counterexample :
    run_article_analysis c6Store (fun _ => some c5Resp) 10 =
      some ⟨.crashed, 0, 1,
        ⟨[c6Row], [⟨"a", 92, 2, ["ai", "ml", "research"]⟩]⟩, []⟩ ∧
    get_unanalysed_articles c6Store (some BATCH_SIZE) ≠ [] := by
  decide

theorem runLoopGo_invariant :
    ∀ (fuel : Nat) (st : Store) (resps : Nat → Option JVal) (k cf total : Nat)
      (sleeps : List Nat) (o : RunOutcome),
      cf ≤ MAX_CONSECUTIVE_FAILURES → (∀ x ∈ sleeps, x = 5) →
      runLoopGo fuel st resps k cf total sleeps = some o →
      (o.reason = .failures → o.consecutiveFailures = MAX_CONSECUTIVE_FAILURES ∧
        o.store = st ∧ o.totalAnalyzed = total) ∧
      (o.reason = .done → o.store = st ∧ o.totalAnalyzed = total ∧
        get_unanalysed_articles st (some BATCH_SIZE) = []) ∧
      (∀ x ∈ o.sleeps, x = 5) ∧
      (o.reason = .crashed → o.consecutiveFailures = 0) := by
  intro fuel
  induction fuel with
  | zero => intro st resps k cf total sleeps o _ _ h; exact absurd h (by simp [runLoopGo])
  | succ fuel ih =>
    intro st resps k cf total sleeps o hcf hsleeps h
    unfold runLoopGo at h
    split at h
    case isTrue hge =>
      cases h
      refine ⟨fun _ => ⟨?_, rfl, rfl⟩, fun hd => StopReason.noConfusion hd,
        hsleeps, fun hc => StopReason.noConfusion hc⟩
      show cf = MAX_CONSECUTIVE_FAILURES
      have hM : MAX_CONSECUTIVE_FAILURES = 3 := rfl
      rw [hM] at hge hcf ⊢
      omega
    case isFalse hlt =>
      dsimp only at h
      split at h
      case isTrue hemp =>
        cases h
        refine ⟨fun hf => StopReason.noConfusion hf, fun _ => ⟨rfl, rfl, ?_⟩, hsleeps,
          fun hc => StopReason.noConfusion hc⟩
        cases hq : get_unanalysed_articles st (some BATCH_SIZE) with
        | nil => rfl
        | cons a b => rw [hq] at hemp; exact absurd hemp (by simp)
      case isFalse hemp =>
        split at h
        case isTrue hfail =>
          refine ih st resps (k + 1) (cf + 1) total _ o ?_ ?_ h
          · have hM : MAX_CONSECUTIVE_FAILURES = 3 := rfl
            rw [hM] at hlt ⊢
            omega
          · intro x hx
            split at hx
            · rcases List.mem_append.1 hx with hx2 | hx2
              · exact hsleeps x hx2
              · exact List.mem_singleton.1 hx2
            · exact hsleeps x hx
        case isFalse hok =>
          split at h <;>
          · cases h
            exact ⟨fun hf => StopReason.noConfusion hf,
              fun hd => StopReason.noConfusion hd, hsleeps, fun _ => rfl⟩

/-- C6 amended: a terminating run of `run_article_analysis` ends in one of
three ways — `failures` with the consecutive-failure counter at the limit,
the store unchanged and nothing persisted; `done` with the store unchanged,
nothing persisted and no unanalysed article left; or `crashed` right after a
successfully validated batch (counter reset to 0), the uncaught slice
`TypeError` firing before the 1-second pause.  Every sleep in the trace is a
5-second retry delay — the 1-second between-batch pause never executes. -/
theorem C6_amended_loop_shape (st : Store) (resps : Nat → Option JVal)
    (fuel : Nat) (o : RunOutcome)
    (h : run_article_analysis st resps fuel = some o) :
    (o.reason = .failures → o.consecutiveFailures = MAX_CONSECUTIVE_FAILURES ∧
      o.store = st ∧ o.totalAnalyzed = 0) ∧
    (o.reason = .done → o.store = st ∧ o.totalAnalyzed = 0 ∧
      get_unanalysed_articles st (some BATCH_SIZE) = []) ∧
    (∀ x ∈ o.sleeps, x = 5) ∧
    (o.reason = .crashed → o.consecutiveFailures = 0) :=
  runLoopGo_invariant fuel st resps 0 0 0 [] o (Nat.zero_le _)
    (fun x hx => absurd hx (List.not_mem_nil x)) h

/-- C6 amended witness: the crashed outcome of the counterexample run, with
the theorem giving the reset counter. -/
theorem C6_amended_witness :
    run_article_analysis c6Store (fun _ => some c5Resp) 10 =
      some ⟨.crashed, 0, 1,
        ⟨[c6Row], [⟨"a", 92, 2, ["ai", "ml", "research"]⟩]⟩, []⟩ ∧
    (⟨.crashed, 0, 1, ⟨[c6Row], [⟨"a", 92, 2, ["ai", "ml", "research"]⟩]⟩,
      []⟩ : RunOutcome).consecutiveFailures = 0 :=
  ⟨by decide,
   (C6_amended_loop_shape c6Store (fun _ => some c5Resp) 10 _ (by decide)).2.2.2 rfl⟩

/-! ### Helper lemmas: recent-article grouping (C7) -/

theorem upsertREntry_sound (Q : Row → Prop) {acc : List (String × REntry)} {x : Row}
    (hacc : ∀ kv ∈ acc, ∀ r ∈ kv.2.sources, Q r ∧ r.article_id = kv.1) (hx : Q x) :
    ∀ kv ∈ upsertGroup (fun r => r.article_id)
      (fun r => (⟨r.article_url, [r]⟩ : REntry))
      (fun e r => ⟨e.article_url, e.sources ++ [r]⟩) acc x,
      ∀ r ∈ kv.2.sources, Q r ∧ r.article_id = kv.1 := by
  intro kv hkv r hr
  unfold upsertGroup at hkv
  split at hkv
  · obtain ⟨kv0, hkv0, heq⟩ := List.mem_map.1 hkv
    by_cases hk : kv0.1 = x.article_id
    · rw [← heq, if_pos hk] at hr ⊢
      rcases List.mem_append.1 hr with h1 | h1
      · exact hacc kv0 hkv0 r h1
      · rw [List.mem_singleton.1 h1]
        exact ⟨hx, hk.symm⟩
    · rw [← heq, if_neg hk] at hr ⊢
      exact hacc kv0 hkv0 r hr
  · rcases List.mem_append.1 hkv with h1 | h1
    · exact hacc kv h1 r hr
    · rw [List.mem_singleton.1 h1] at hr ⊢
      rw [List.mem_singleton.1 hr]
      exact ⟨hx, rfl⟩

theorem recentFold_sound (Q : Row → Prop) :
    ∀ (rows : List Row) (acc : List (String × REntry)),
      (∀ kv ∈ acc, ∀ r ∈ kv.2.sources, Q r ∧ r.article_id = kv.1) →
      (∀ r ∈ rows, Q r) →
      ∀ kv ∈ rows.foldl (upsertGroup (fun r => r.article_id)
          (fun r => (⟨r.article_url, [r]⟩ : REntry))
          (fun e r => ⟨e.article_url, e.sources ++ [r]⟩)) acc,
        ∀ r ∈ kv.2.sources, Q r ∧ r.article_id = kv.1 := by
  intro rows
  induction rows with
  | nil => intro acc hacc _ kv hkv; exact hacc kv hkv
  | cons x rows ih =>
    intro acc hacc hrows kv hkv
    exact ih _ (upsertREntry_sound Q hacc (hrows x (List.mem_cons_self x rows)))
      (fun r hr => hrows r (List.mem_cons_of_mem x hr)) kv hkv

theorem upsertREntry_ne {acc : List (String × REntry)} {x : Row}
    (hacc : ∀ kv ∈ acc, kv.2.sources ≠ []) :
    ∀ kv ∈ upsertGroup (fun r => r.article_id)
      (fun r => (⟨r.article_url, [r]⟩ : REntry))
      (fun e r => ⟨e.article_url, e.sources ++ [r]⟩) acc x,
      kv.2.sources ≠ [] := by
  intro kv hkv
  unfold upsertGroup at hkv
  split at hkv
  · obtain ⟨kv0, hkv0, heq⟩ := List.mem_map.1 hkv
    by_cases hk : kv0.1 = x.article_id
    · rw [← heq, if_pos hk]
      simp
    · rw [← heq, if_neg hk]
      exact hacc kv0 hkv0
  · rcases List.mem_append.1 hkv with h1 | h1
    · exact hacc kv h1
    · rw [List.mem_singleton.1 h1]
      simp

theorem recentFold_ne :
    ∀ (rows : List Row) (acc : List (String × REntry)),
      (∀ kv ∈ acc, kv.2.sources ≠ []) →
      ∀ kv ∈ rows.foldl (upsertGroup (fun r => r.article_id)
          (fun r => (⟨r.article_url, [r]⟩ : REntry))
          (fun e r => ⟨e.article_url, e.sources ++ [r]⟩)) acc,
        kv.2.sources ≠ [] := by
  intro rows
  induction rows with
  | nil => intro acc hacc kv hkv; exact hacc kv hkv
  | cons x rows ih =>
    intro acc hacc kv hkv
    exact ih _ (upsertREntry_ne hacc) kv hkv

theorem upsertREntry_complete_old {acc : List (String × REntry)} {x r : Row}
    (h : ∃ e, (r.article_id, e) ∈ acc ∧ r ∈ e.sources) :
    ∃ e, (r.article_id, e) ∈ upsertGroup (fun r => r.article_id)
      (fun r => (⟨r.article_url, [r]⟩ : REntry))
      (fun e r => ⟨e.article_url, e.sources ++ [r]⟩) acc x ∧ r ∈ e.sources := by
  obtain ⟨e, he, hre⟩ := h
  unfold upsertGroup
  split
  · by_cases hk : r.article_id = x.article_id
    · refine ⟨⟨e.article_url, e.sources ++ [x]⟩, ?_, List.mem_append_left _ hre⟩
      have himg := List.mem_map_of_mem
        (fun kv : String × REntry => if kv.1 = x.article_id
          then (kv.1, (⟨kv.2.article_url, kv.2.sources ++ [x]⟩ : REntry)) else kv) he
      simpa [hk] using himg
    · refine ⟨e, ?_, hre⟩
      have himg := List.mem_map_of_mem
        (fun kv : String × REntry => if kv.1 = x.article_id
          then (kv.1, (⟨kv.2.article_url, kv.2.sources ++ [x]⟩ : REntry)) else kv) he
      simpa [hk] using himg
  · exact ⟨e, List.mem_append_left _ he, hre⟩

theorem upsertREntry_complete_new {acc : List (String × REntry)} {x : Row} :
    ∃ e, (x.article_id, e) ∈ upsertGroup (fun r => r.article_id)
      (fun r => (⟨r.article_url, [r]⟩ : REntry))
      (fun e r => ⟨e.article_url, e.sources ++ [r]⟩) acc x ∧ x ∈ e.sources := by
  unfold upsertGroup
  split
  case isTrue hany =>
    obtain ⟨kv0, hkv0, hdec⟩ := List.any_eq_true.1 hany
    have hk : kv0.1 = x.article_id := of_decide_eq_true hdec
    refine ⟨⟨kv0.2.article_url, kv0.2.sources ++ [x]⟩, ?_,
      List.mem_append_right _ (List.mem_singleton_self x)⟩
    have himg := List.mem_map_of_mem
      (fun kv : String × REntry => if kv.1 = x.article_id
        then (kv.1, (⟨kv.2.article_url, kv.2.sources ++ [x]⟩ : REntry)) else kv) hkv0
    simpa [hk] using himg
  case isFalse =>
    exact ⟨⟨x.article_url, [x]⟩,
      List.mem_append_right _ (List.mem_singleton_self _), List.mem_singleton_self x⟩

theorem recentFold_complete :
    ∀ (rows : List Row) (acc : List (String × REntry)) (r : Row),
      ((∃ e, (r.article_id, e) ∈ acc ∧ r ∈ e.sources) ∨ r ∈ rows) →
      ∃ e, (r.article_id, e) ∈ rows.foldl (upsertGroup (fun r => r.article_id)
          (fun r => (⟨r.article_url, [r]⟩ : REntry))
          (fun e r => ⟨e.article_url, e.sources ++ [r]⟩)) acc ∧ r ∈ e.sources := by
  intro rows
  induction rows with
  | nil =>
    intro acc r h
    rcases h with h | h
    · exact h
    · exact absurd h (List.not_mem_nil r)
  | cons x rows ih =>
    intro acc r h
    apply ih
    rcases h with h | h
    · exact Or.inl (upsertREntry_complete_old h)
    · rcases List.mem_cons.1 h with rfl | h2
      · exact Or.inl upsertREntry_complete_new
      · exact Or.inr h2

theorem mem_recentRows {dtime : String → Int} {now : Int} {st : Store}
    {hb m c : Int} {r : Row} :
    r ∈ recentRows dtime now st hb m c ↔
      r ∈ st.articles ∧
      (∃ a ∈ st.analyses, a.article_id = r.article_id ∧
        m ≤ a.relevance_score ∧ a.category = c) ∧
      now - hb * 3600 ≤ dtime r.date := by
  unfold recentRows
  rw [mem_sortByDateDesc]
  simp only [List.mem_filter, List.mem_flatten, List.mem_map, decide_eq_true_eq]
  constructor
  · rintro ⟨⟨l, ⟨r0, hr0, rfl⟩, hrl⟩, hwin⟩
    obtain ⟨a, ha, rfl⟩ := List.mem_map.1 hrl
    have ha2 := List.mem_filter.1 ha
    simp only [Bool.and_eq_true, beq_iff_eq, decide_eq_true_eq] at ha2
    exact ⟨hr0, ⟨a, ha2.1, ha2.2.1.1, ha2.2.1.2, ha2.2.2⟩, hwin⟩
  · rintro ⟨hmem, ⟨a, ha, haid, hsc, hcat⟩, hwin⟩
    refine ⟨⟨(st.analyses.filter (fun a2 => a2.article_id == r.article_id &&
        decide (m ≤ a2.relevance_score) && (a2.category == c))).map (fun _ => r),
      ⟨r, hmem, rfl⟩, ?_⟩, hwin⟩
    apply List.mem_map_of_mem
    apply List.mem_filter.2
    refine ⟨ha, ?_⟩
    simp [haid, hsc, hcat]

/-- Claim-side membership predicate for `get_recent_articles` taken from the
claim: an `article_id` belongs to the result exactly when it has a matching
`Analysis` (score at least `m`, category `c`) and the earliest of its
RawRecord timestamps falls within `[now - hb hours, now]` (earliest at least
the cutoff means every record is; earliest at most `now` means some record
is). -/
def SpecRecentHas (dtime : String → Int) (now : Int) (st : Store)
    (hb m c : Int) (aid : String) : Prop :=
  (∃ a ∈ st.analyses, a.article_id = aid ∧ m ≤ a.relevance_score ∧
    a.category = c) ∧
  (∃ r ∈ st.articles, r.article_id = aid) ∧
  (∀ r ∈ st.articles, r.article_id = aid → now - hb * 3600 ≤ dtime r.date) ∧
  (∃ r ∈ st.articles, r.article_id = aid ∧ dtime r.date ≤ now)

/-- Row for the C7 counterexample: its only timestamp lies in the future. -/
def c7Row : Row :=
  ⟨"rss", "hn", "1", none, none, "T", none, "2030-01-01 00:00:00", "A",
   "https://a.com/x"⟩

/-- C7 counterexample store: one analysed article. -/
def c7Store : Store := ⟨[c7Row], [⟨"A", 90, 3, ["x", "y", "z"]⟩]⟩

/-- Time interpretation for the C7 counterexample: the row's date parses to
10 seconds after `now = 0`. -/
def c7Dtime : String → Int := fun _ => 10

/-- C7 counterexample: with `now = 0`, `hours_back = 1` and a single row
whose timestamp is in the future (10 > now), the claim excludes the article
(earliest timestamp outside `[now - hb, now]`) but the code returns it — the
SQL filter has no upper time bound. -/
theorem C7_counterexample :
    (get_recent_articles c7Dtime 0 c7Store 1 80 3).map (fun kv => kv.1) = ["A"] ∧
    ¬ SpecRecentHas c7Dtime 0 c7Store 1 80 3 "A" := by
  constructor
  · decide
  · unfold SpecRecentHas
    decide

/-- C7 amended: `get_recent_articles` returns exactly the articles having at
least one analysed RawRecord with `dtime date ≥ now - hours_back` (no upper
bound), each grouped entry carrying exactly the rows passing that per-row
filter (not all contributing RawRecords): every returned source row is a
stored, in-window row of that article with a matching analysis, and
conversely every such row appears in its article's entry. -/
theorem C7_amended_recent_characterization (dtime : String → Int) (now : Int)
    (st : Store) (hb m c : Int) :
    (∀ aid e, (aid, e) ∈ get_recent_articles dtime now st hb m c →
      e.sources ≠ [] ∧
      ∀ r ∈ e.sources, r ∈ st.articles ∧ r.article_id = aid ∧
        now - hb * 3600 ≤ dtime r.date ∧
        ∃ a ∈ st.analyses, a.article_id = aid ∧ m ≤ a.relevance_score ∧
          a.category = c) ∧
    (∀ r ∈ st.articles,
      (∃ a ∈ st.analyses, a.article_id = r.article_id ∧ m ≤ a.relevance_score ∧
        a.category = c) →
      now - hb * 3600 ≤ dtime r.date →
      ∃ e, (r.article_id, e) ∈ get_recent_articles dtime now st hb m c ∧
        r ∈ e.sources) := by
  constructor
  · intro aid e hmem
    constructor
    · exact recentFold_ne (recentRows dtime now st hb m c) []
        (fun kv hkv => absurd hkv (List.not_mem_nil kv)) (aid, e) hmem
    · intro r hr
      have hs := recentFold_sound (fun r => r ∈ recentRows dtime now st hb m c)
        (recentRows dtime now st hb m c) []
        (fun kv hkv => absurd hkv (List.not_mem_nil kv))
        (fun r hr => hr) (aid, e) hmem r hr
      obtain ⟨hrr, haid⟩ := hs
      obtain ⟨hmem2, ⟨a, ha⟩, hwin⟩ := mem_recentRows.1 hrr
      exact ⟨hmem2, haid, hwin, a, ha.1, ha.2.1.trans haid, ha.2.2.1, ha.2.2.2⟩
  · intro r hmem hana hwin
    exact recentFold_complete (recentRows dtime now st hb m c) [] r
      (Or.inr (mem_recentRows.2 ⟨hmem, hana, hwin⟩))

/-- C7 amended witness: the amended characterization applied to the
counterexample store (sources of the returned entry are non-empty). -/
theorem C7_amended_witness :
    (("A", (⟨"https://a.com/x", [c7Row]⟩ : REntry)) ∈
      get_recent_articles c7Dtime 0 c7Store 1 80 3) ∧
    (⟨"https://a.com/x", [c7Row]⟩ : REntry).sources ≠ [] :=
  ⟨by decide,
   ((C7_amended_recent_characterization c7Dtime 0 c7Store 1 80 3).1 "A"
     ⟨"https://a.com/x", [c7Row]⟩ (by decide)).1⟩

end ReadonlyAI
